import Mathlib

/-!
Verification of DocsVerse: a document research and theme identification
application.  The repository ships a React frontend (document upload, chat,
theme display) talking to a FastAPI backend.  The backend's Python sources
are not part of the checked tree, so the retrieval index, query synthesizer,
theme engine and ingestion state machine are modelled from the design
specification; the frontend components (ChatInterface, DocumentUpload,
documentService, ThemeList) are embedded directly from their JavaScript
sources.
-/

/-! ## Retrieval index (spec §4.2) -/

/-- Modelled from the spec: a chunk stored in the similarity index —
the backend indexing code is not under the checked sources.  Carries the
chunk identifier, owning document id, sequence position and raw text
(spec §3, Chunk). -/
structure Chunk where
  chunk_id : Nat
  document_id : String
  position : Nat
  text : String
deriving DecidableEq, Repr

/-- Ranking order used by `search`: higher similarity first, ties broken by
lower sequence position (spec §4.2: "Ties broken by original chunk sequence
position"). `sim` is the similarity of the already-embedded query to a
chunk's embedding. -/
def chunkBefore (sim : Chunk → Int) (a b : Chunk) : Bool :=
  sim a > sim b || (sim a == sim b && a.position ≤ b.position)

/-- Insert a chunk into an already ranked list, keeping the ranking. -/
def insertRanked (le : Chunk → Chunk → Bool) (c : Chunk) : List Chunk → List Chunk
  | [] => [c]
  | d :: ds => if le c d then c :: d :: ds else d :: insertRanked le c ds

/-- Rank a pool of chunks by the given order (insertion sort). -/
def rankAll (le : Chunk → Chunk → Bool) (l : List Chunk) : List Chunk :=
  l.foldr (insertRanked le) []

/-- Modelled from the spec: `search(query_text, candidate_document_ids, k)`
embeds the query, restricts the index to the candidate documents (the whole
index when the candidate set is empty), ranks by descending similarity with
position tie-break, and returns the top k (spec §4.2).  `sim q c` is the
similarity of the embedded query `q` to chunk `c`. -/
def search (sim : String → Chunk → Int) (index : List Chunk) (q : String)
    (ids : List String) (k : Nat) : List Chunk :=
  let pool := if ids.isEmpty then index else
    index.filter (fun c => ids.contains c.document_id)
  (rankAll (chunkBefore (sim q)) pool).take k

/-- Modelled from the spec: the unscoped ("search all") ranking over the
whole index, used when the candidate set is empty or omitted. -/
def searchAll (sim : String → Chunk → Int) (index : List Chunk) (q : String)
    (k : Nat) : List Chunk :=
  (rankAll (chunkBefore (sim q)) index).take k

lemma mem_insertRanked {le : Chunk → Chunk → Bool} {c x : Chunk} :
    ∀ {l : List Chunk}, x ∈ insertRanked le c l → x = c ∨ x ∈ l := by
  intro l
  induction l with
  | nil => simp [insertRanked]
  | cons d ds ih =>
    simp only [insertRanked]
    by_cases h : le c d = true
    · simp only [if_pos h, List.mem_cons]
      tauto
    · simp only [if_neg h, List.mem_cons]
      intro hx
      rcases hx with hx | hx
      · tauto
      · rcases ih hx with h1 | h1 <;> tauto

lemma mem_rankAll {le : Chunk → Chunk → Bool} {x : Chunk} :
    ∀ {l : List Chunk}, x ∈ rankAll le l → x ∈ l := by
  intro l
  induction l with
  | nil => simp [rankAll]
  | cons d ds ih =>
    intro hx
    simp only [rankAll, List.foldr] at hx
    rcases mem_insertRanked hx with h | h
    · simp [h]
    · exact List.mem_cons_of_mem _ (ih h)

/-- C1: with a non-empty candidate set, every chunk returned by `search`
belongs to a candidate document; with an empty candidate set, the search
ranges over the whole index. -/
theorem search_scoped_to_candidates (sim : String → Chunk → Int)
    (index : List Chunk) (q : String) (ids : List String) (k : Nat) :
    (ids ≠ [] → ∀ c ∈ search sim index q ids k, c.document_id ∈ ids) ∧
    search sim index q [] k = searchAll sim index q k := by
  constructor
  · intro hne c hc
    simp only [search] at hc
    rw [if_neg (by simpa using hne)] at hc
    have h1 := mem_rankAll (List.mem_of_mem_take hc)
    have h2 := List.mem_filter.mp h1
    simpa using h2.2
  · simp [search, searchAll]

/-- Witness for C1 at a concrete index and candidate set. -/
theorem search_scoped_to_candidates_witness :
    ∀ c ∈ search (fun _ _ => 0)
      [⟨0, "A", 0, "alpha"⟩, ⟨1, "B", 0, "beta"⟩] "q" ["A"] 5,
      c.document_id ∈ ["A"] :=
  (search_scoped_to_candidates (fun _ _ => 0)
    [⟨0, "A", 0, "alpha"⟩, ⟨1, "B", 0, "beta"⟩] "q" ["A"] 5).1 (by decide)

/-! ## Query synthesizer (spec §4.3) -/

/-- Modelled from the spec: a citation attached to a per-document answer —
document id, a reference to the cited chunk, the cited text span and a
relevance score (spec §3, Citation).  The backend synthesizer code is not
under the checked sources. -/
structure Citation where
  document_id : String
  chunk_id : Nat
  text : String
  score : Rat
deriving DecidableEq, Repr

/-- Modelled from the spec: the per-document extracted answer with its
citations (spec §3, QueryResult). -/
structure DocResponse where
  document_id : String
  extracted_answer : String
  citations : List Citation
deriving DecidableEq, Repr

/-- Modelled from the spec: the result of `answer` — question, target
document ids, per-document answers, one synthesized answer, themes found in
the exchange (spec §3, QueryResult). -/
structure QueryResult where
  question : String
  target_document_ids : List String
  document_responses : List DocResponse
  synthesized_answer : String
  theme_names : List String
deriving DecidableEq, Repr

/-- Modelled from the spec: the error taxonomy of §7 (the kinds the claims
mention). -/
inductive ErrKind where
  | InvalidRequest
  | NotFound
deriving DecidableEq, Repr

/-- Modelled from the spec: the degraded per-document answer recorded when
extraction fails for a document (spec §4.3 step 3: "no answer available"). -/
def degradedAnswer : String := "no answer available"

/-- Does citation `c` reference one of the `retrieved` chunks?  True when a
retrieved chunk has the cited chunk id and document id (spec §4.3 step 2:
citations are "validated to be subsets of the retrieved chunks"). -/
def citationRetrieved (retrieved : List Chunk) (c : Citation) : Bool :=
  retrieved.any (fun ch => ch.chunk_id == c.chunk_id && ch.document_id == c.document_id)

/-- Modelled from the spec: per-document extraction (spec §4.3 steps 1-3).
Retrieves the top-k chunks scoped to the single document, asks the
text-generation service `gen` for an answer plus citations, discards
citations that do not reference a retrieved chunk, and degrades to
`degradedAnswer` when the service fails (`none`: timeout or malformed
output). -/
def extractForDoc (sim : String → Chunk → Int)
    (gen : String → List Chunk → Option (String × List Citation))
    (index : List Chunk) (k : Nat) (q : String) (docId : String) : DocResponse :=
  match gen q (search sim index q [docId] k) with
  | none => ⟨docId, degradedAnswer, []⟩
  | some (ans, cits) =>
      ⟨docId, ans, cits.filter (citationRetrieved (search sim index q [docId] k))⟩

/-- Modelled from the spec: step 4's merge of the per-document answers that
succeeded into one synthesized response (spec §4.3 steps 3-4: "the
synthesized step proceeds with whatever succeeded"). -/
def synthesize (responses : List DocResponse) : String :=
  String.intercalate "\n\n"
    ((responses.filter (fun r => r.extracted_answer != degradedAnswer)).map
      (fun r => r.extracted_answer))

/-- Modelled from the spec: `answer(question, target_document_ids)`
(spec §4.3).  Fails with `InvalidRequest` on an empty target set; otherwise
extracts per document, synthesizes across the successes and attaches the
best-effort themes of the exchange (`exchangeThemes = none` models a failed
theme attempt, which must not fail the query). -/
def answer (sim : String → Chunk → Int)
    (gen : String → List Chunk → Option (String × List Citation))
    (exchangeThemes : Option (List String))
    (index : List Chunk) (k : Nat) (q : String) (targets : List String) :
    Except ErrKind QueryResult :=
  if targets.isEmpty then .error .InvalidRequest
  else
    let responses := targets.map (extractForDoc sim gen index k q)
    .ok { question := q
          target_document_ids := targets
          document_responses := responses
          synthesized_answer := synthesize responses
          theme_names := exchangeThemes.getD [] }

lemma extractForDoc_spec (sim : String → Chunk → Int)
    (gen : String → List Chunk → Option (String × List Citation))
    (index : List Chunk) (k : Nat) (q : String) (d : String) :
    (extractForDoc sim gen index k q d).document_id = d ∧
    ∀ c ∈ (extractForDoc sim gen index k q d).citations,
      ∃ ch ∈ search sim index q [d] k,
        ch.chunk_id = c.chunk_id ∧ ch.document_id = c.document_id := by
  unfold extractForDoc
  cases hgen : gen q (search sim index q [d] k) with
  | none => simp
  | some p =>
    obtain ⟨ans, cits⟩ := p
    refine ⟨rfl, ?_⟩
    intro c hc
    simp only at hc
    obtain ⟨hc1, hc2⟩ := List.mem_filter.mp hc
    simp only [citationRetrieved, List.any_eq_true, Bool.and_eq_true,
      beq_iff_eq] at hc2
    obtain ⟨ch, hch, hb1, hb2⟩ := hc2
    exact ⟨ch, hch, hb1, hb2⟩

/-- C2: every citation in a `QueryResult` produced by `answer` references a
chunk that is among the top-k chunks retrieved for that citation's document
and that query; no citation references text that was not retrieved. -/
theorem citations_reference_retrieved_chunks (sim : String → Chunk → Int)
    (gen : String → List Chunk → Option (String × List Citation))
    (th : Option (List String)) (index : List Chunk) (k : Nat) (q : String)
    (targets : List String) (r : QueryResult)
    (h : answer sim gen th index k q targets = .ok r) :
    ∀ dr ∈ r.document_responses, ∀ c ∈ dr.citations,
      ∃ ch ∈ search sim index q [dr.document_id] k,
        ch.chunk_id = c.chunk_id ∧ ch.document_id = c.document_id := by
  simp only [answer] at h
  by_cases ht : targets.isEmpty
  · rw [if_pos ht] at h
    exact absurd h (by simp)
  · rw [if_neg ht] at h
    simp only [Except.ok.injEq] at h
    subst h
    intro dr hdr c hc
    simp only [List.mem_map] at hdr
    obtain ⟨d, hd, hdr⟩ := hdr
    subst hdr
    have hs := extractForDoc_spec sim gen index k q d
    rw [hs.1]
    exact hs.2 c hc

/-- Witness for C2: in a concrete run of `answer`, the single returned
citation references the one chunk retrieved for its document. -/
theorem citations_reference_retrieved_chunks_witness :
    ∃ ch ∈ search (fun _ _ => 0) [⟨0, "A", 0, "alpha"⟩] "q" ["A"] 3,
      ch.chunk_id = 0 ∧ ch.document_id = "A" :=
  citations_reference_retrieved_chunks (fun _ _ => 0)
    (fun _ _ => some ("ans", [⟨"A", 0, "alpha", 1⟩]))
    none [⟨0, "A", 0, "alpha"⟩] 3 "q" ["A"]
    ⟨"q", ["A"], [⟨"A", "ans", [⟨"A", 0, "alpha", 1⟩]⟩], "ans", []⟩ rfl
    ⟨"A", "ans", [⟨"A", 0, "alpha", 1⟩]⟩ (List.mem_singleton.mpr rfl)
    ⟨"A", 0, "alpha", 1⟩ (List.mem_singleton.mpr rfl)

/-- C4: when extraction fails for some (but not all) target documents,
`answer` still returns a `QueryResult`; the failing documents are recorded
as degraded per-document answers, and the synthesized answer is produced
from the responses that succeeded (by definition `synthesize` drops every
degraded response). -/
theorem answer_degrades_per_document_failures (sim : String → Chunk → Int)
    (gen : String → List Chunk → Option (String × List Citation))
    (th : Option (List String)) (index : List Chunk) (k : Nat) (q : String)
    (targets : List String)
    (hfail : ∃ d ∈ targets, gen q (search sim index q [d] k) = none)
    (hsucc : ∃ d ∈ targets, gen q (search sim index q [d] k) ≠ none) :
    ∃ r, answer sim gen th index k q targets = .ok r ∧
      (∀ d ∈ targets, gen q (search sim index q [d] k) = none →
        (⟨d, degradedAnswer, []⟩ : DocResponse) ∈ r.document_responses) ∧
      r.synthesized_answer =
        String.intercalate "\n\n"
          ((r.document_responses.filter
              (fun x => x.extracted_answer != degradedAnswer)).map
            (fun x => x.extracted_answer)) := by
  obtain ⟨d0, hd0, _⟩ := hfail
  have hne : targets ≠ [] := by
    intro hcon
    subst hcon
    exact absurd hd0 (List.not_mem_nil d0)
  refine ⟨⟨q, targets, targets.map (extractForDoc sim gen index k q),
    synthesize (targets.map (extractForDoc sim gen index k q)),
    th.getD []⟩, ?_, ?_, ?_⟩
  · have h1 : targets.isEmpty = false := by simpa using hne
    simp [answer, h1]
  · intro d hd hgen
    simp only [List.mem_map]
    refine ⟨d, hd, ?_⟩
    unfold extractForDoc
    rw [hgen]
  · rfl

/-- Witness for C4: document A's extraction fails, document B's succeeds;
the query still returns a result that records A as degraded. -/
theorem answer_degrades_per_document_failures_witness :
    ∃ r, answer (fun _ _ => 0)
        (fun _ retrieved =>
          if retrieved.any (fun c => c.document_id == "B") then
            some ("ans", []) else none)
        none [⟨1, "B", 0, "beta"⟩] 5 "q" ["A", "B"] = .ok r ∧
      (∀ d ∈ ["A", "B"],
        (fun _ retrieved =>
          if retrieved.any (fun c => c.document_id == "B") then
            some (("ans" : String), ([] : List Citation)) else none) "q"
            (search (fun _ _ => 0) [⟨1, "B", 0, "beta"⟩] "q" [d] 5) = none →
        (⟨d, degradedAnswer, []⟩ : DocResponse) ∈ r.document_responses) ∧
      r.synthesized_answer =
        String.intercalate "\n\n"
          ((r.document_responses.filter
              (fun x => x.extracted_answer != degradedAnswer)).map
            (fun x => x.extracted_answer)) :=
  answer_degrades_per_document_failures (fun _ _ => 0)
    (fun _ retrieved =>
      if retrieved.any (fun c => c.document_id == "B") then
        some ("ans", []) else none)
    none [⟨1, "B", 0, "beta"⟩] 5 "q" ["A", "B"]
    ⟨"A", by decide, by decide⟩ ⟨"B", by decide, by decide⟩

/-! ## Chat client (frontend/src/components/ChatInterface.jsx) -/

/-- A document as held in the chat page's `selectedDocuments` state: the
request builder only reads its `id` (ChatInterface.jsx line 39). -/
structure SelDoc where
  id : String
deriving DecidableEq, Repr

/-- Drop leading whitespace characters. -/
def dropLeadingWS : List Char → List Char
  | [] => []
  | c :: cs => if c.isWhitespace then dropLeadingWS cs else c :: cs

/-- JavaScript's `String.prototype.trim()`: strip whitespace from both ends
of the string. -/
def jsTrim (s : String) : String :=
  String.mk ((dropLeadingWS (dropLeadingWS s.toList).reverse).reverse)

/-- Embedded from ChatInterface.jsx line 267: the Send button's `disabled`
attribute, `selectedDocuments.length === 0 || !input.trim() ||
sendMessageMutation.isLoading` (a JavaScript string is falsy exactly when
empty, so `!input.trim()` means the trimmed input is empty). -/
def sendDisabled (selectedDocuments : List SelDoc) (input : String)
    (isLoading : Bool) : Bool :=
  selectedDocuments.length == 0 || jsTrim input == "" || isLoading

/-- C5: `answer` on an empty target set fails with `InvalidRequest` and on
any non-empty target set returns a `QueryResult`; in the client, the send
control is enabled only when at least one document is selected. -/
theorem answer_requires_nonempty_targets :
    (∀ (sim : String → Chunk → Int)
       (gen : String → List Chunk → Option (String × List Citation))
       (th : Option (List String)) (index : List Chunk) (k : Nat) (q : String),
       answer sim gen th index k q [] = .error .InvalidRequest) ∧
    (∀ (sim : String → Chunk → Int)
       (gen : String → List Chunk → Option (String × List Citation))
       (th : Option (List String)) (index : List Chunk) (k : Nat) (q : String)
       (targets : List String), targets ≠ [] →
       ∃ r, answer sim gen th index k q targets = .ok r) ∧
    (∀ (selected : List SelDoc) (input : String) (isLoading : Bool),
       sendDisabled selected input isLoading = false → selected ≠ []) := by
  refine ⟨fun _ _ _ _ _ _ => rfl, ?_, ?_⟩
  · intro sim gen th index k q targets hne
    have h1 : targets.isEmpty = false := by simpa using hne
    exact ⟨⟨q, targets, targets.map (extractForDoc sim gen index k q),
      synthesize (targets.map (extractForDoc sim gen index k q)),
      th.getD []⟩, by simp [answer, h1]⟩
  · intro selected input isLoading hdis hnil
    subst hnil
    simp [sendDisabled] at hdis

/-- Witness for C5 at concrete inputs: a one-document query succeeds, and an
enabled send control implies a non-empty selection. -/
theorem answer_requires_nonempty_targets_witness :
    (∃ r, answer (fun _ _ => 0) (fun _ _ => none) none [] 3 "q" ["A"] = .ok r) ∧
    ([⟨"A"⟩] : List SelDoc) ≠ [] :=
  ⟨answer_requires_nonempty_targets.2.1 (fun _ _ => 0) (fun _ _ => none)
      none [] 3 "q" ["A"] (by decide),
   answer_requires_nonempty_targets.2.2 [⟨"A"⟩] "hi" false (by decide)⟩

/-! ## Theme engine (spec §4.4) -/

/-- Modelled from the spec: a per-document candidate topic descriptor
(name + keywords), carrying the id of the document that contributed it
(spec §4.4 step 1).  The backend theme engine code is not under the
checked sources. -/
structure Candidate where
  document_id : String
  name : String
  keywords : List String
deriving DecidableEq, Repr

/-- Add one candidate to a set of merge groups: every group containing a
candidate similar to `c` is fused with `c` into a single group (transitive,
order-independent merging — the union-find step of spec §4.4 step 2). -/
def addToGroups (simB : Candidate → Candidate → Bool)
    (groups : List (List Candidate)) (c : Candidate) : List (List Candidate) :=
  (c :: (groups.filter (fun g => g.any (simB c))).join) ::
    groups.filter (fun g => !(g.any (simB c)))

/-- Clamp a rational to the closed interval [0,1]. -/
def clamp01 (x : Rat) : Rat := max 0 (min 1 x)

/-- Sum of pairwise similarities of a group of candidates. -/
def pairSimSum (simR : Candidate → Candidate → Rat) : List Candidate → Rat
  | [] => 0
  | c :: cs => (cs.map (simR c)).sum + pairSimSum simR cs

/-- Average pairwise similarity of a merged group (1 for singletons). -/
def avgPairSim (simR : Candidate → Candidate → Rat)
    (comp : List Candidate) : Rat :=
  if comp.length ≤ 1 then 1
  else pairSimSum simR comp / ((comp.length * (comp.length - 1) / 2 : Nat) : Rat)

/-- Modelled from the spec: the confidence score of a merged theme —
increasing in the number of distinct supporting documents and in the average
pairwise similarity of the merged candidates, clamped to [0,1]
(spec §4.4 step 3; the exact formula is left open by the spec, §9). -/
def confidence (simR : Candidate → Candidate → Rat)
    (comp : List Candidate) : Rat :=
  clamp01 ((((comp.map (fun c => c.document_id)).dedup.length : Rat) /
      ((comp.map (fun c => c.document_id)).dedup.length + 1)) *
    clamp01 (avgPairSim simR comp))

/-- Modelled from the spec: a cross-document theme — name, description,
keywords, confidence score and the set of supporting document ids
(spec §3, Theme). -/
structure Theme where
  name : String
  description : String
  keywords : List String
  confidence_score : Rat
  document_ids : List String
deriving DecidableEq, Repr

/-- Build the theme of one merged group of candidates. -/
def mkTheme (simR : Candidate → Candidate → Rat)
    (comp : List Candidate) : Theme :=
  { name := ((comp.head?).map (fun c => c.name)).getD ""
    description := ""
    keywords := ((comp.map (fun c => c.keywords)).join).dedup
    confidence_score := confidence simR comp
    document_ids := ((comp.map (fun c => c.document_id)).dedup) }

/-- Modelled from the spec: `analyze(document_ids)` (spec §4.4) — derive
candidates per document via `candGen`, merge similar candidates across
documents transitively, and score each merged group. -/
def analyze (candGen : String → List Candidate)
    (simB : Candidate → Candidate → Bool)
    (simR : Candidate → Candidate → Rat)
    (document_ids : List String) : List Theme :=
  (((document_ids.map (fun d =>
      (candGen d).map (fun c => { c with document_id := d }))).join).foldl
    (addToGroups simB) []).map (mkTheme simR)

lemma clamp01_nonneg (x : Rat) : 0 ≤ clamp01 x := le_max_left 0 _

lemma clamp01_le_one (x : Rat) : clamp01 x ≤ 1 :=
  max_le zero_le_one (min_le_left 1 x)

lemma foldl_addToGroups_ne_nil (simB : Candidate → Candidate → Bool) :
    ∀ (cs : List Candidate) (init : List (List Candidate)),
      (∀ g ∈ init, g ≠ []) →
      ∀ g ∈ cs.foldl (addToGroups simB) init, g ≠ [] := by
  intro cs
  induction cs with
  | nil => intro init h; simpa using h
  | cons c cs ih =>
    intro init h
    simp only [List.foldl]
    apply ih
    intro g hg
    simp only [addToGroups, List.mem_cons] at hg
    rcases hg with hg | hg
    · subst hg; simp
    · exact h g (List.mem_filter.mp hg).1

/-- C3: every theme produced by `analyze` has a confidence score in [0,1]
and a non-empty set of supporting document ids. -/
theorem theme_confidence_bounded_and_support_nonempty
    (candGen : String → List Candidate)
    (simB : Candidate → Candidate → Bool)
    (simR : Candidate → Candidate → Rat) (ids : List String) :
    ∀ t ∈ analyze candGen simB simR ids,
      0 ≤ t.confidence_score ∧ t.confidence_score ≤ 1 ∧
      t.document_ids ≠ [] := by
  intro t ht
  simp only [analyze, List.mem_map] at ht
  obtain ⟨comp, hcomp, ht⟩ := ht
  subst ht
  have hne : comp ≠ [] :=
    foldl_addToGroups_ne_nil simB _ [] (by simp) comp hcomp
  refine ⟨clamp01_nonneg _, clamp01_le_one _, ?_⟩
  simp only [mkTheme]
  rw [Ne, List.dedup_eq_nil, List.map_eq_nil]
  exact hne

/-- Witness for C3: a concrete one-document analysis yields a theme with
bounded confidence and non-empty support. -/
theorem theme_confidence_bounded_and_support_nonempty_witness :
    0 ≤ (mkTheme (fun _ _ => (1 : Rat))
        [⟨"A", "topic", ["kw"]⟩]).confidence_score ∧
    (mkTheme (fun _ _ => (1 : Rat))
        [⟨"A", "topic", ["kw"]⟩]).confidence_score ≤ 1 ∧
    (mkTheme (fun _ _ => (1 : Rat))
        [⟨"A", "topic", ["kw"]⟩]).document_ids ≠ [] :=
  theme_confidence_bounded_and_support_nonempty
    (fun d => [⟨d, "topic", ["kw"]⟩]) (fun _ _ => true) (fun _ _ => 1)
    ["A"] (mkTheme (fun _ _ => (1 : Rat)) [⟨"A", "topic", ["kw"]⟩])
    (List.mem_singleton.mpr rfl)

/-! ## Ingestion status machine (spec §4.1) -/

/-- Modelled from the spec: the document lifecycle states (spec §3,
Document: `status ∈ {UPLOADED, PROCESSING, PROCESSED, ERROR}`).  The
backend ingestion code is not under the checked sources. -/
inductive DocStatus where
  | UPLOADED
  | PROCESSING
  | PROCESSED
  | ERROR
deriving DecidableEq, Repr

/-- Modelled from the spec: the allowed status transitions
(spec §4.1: UPLOADED → PROCESSING → PROCESSED or ERROR; ERROR is
terminal). -/
def statusStep : DocStatus → DocStatus → Bool
  | .UPLOADED, .PROCESSING => true
  | .PROCESSING, .PROCESSED => true
  | .PROCESSING, .ERROR => true
  | _, _ => false

/-- Modelled from the spec: the status trace of one ingestion run — the
document starts UPLOADED, flips to PROCESSING on pipeline start, and ends
PROCESSED when extraction, chunking and embedding all succeed, ERROR
otherwise (spec §4.1).  Re-ingestion is a fresh run of this trace, never a
resume. -/
def ingestTrace (extractOk chunkOk embedOk : Bool) : List DocStatus :=
  [.UPLOADED, .PROCESSING,
    if extractOk && chunkOk && embedOk then .PROCESSED else .ERROR]

/-- Does every adjacent pair of statuses in the trace follow an allowed
transition? -/
def traceOk : List DocStatus → Bool
  | [] => true
  | [_] => true
  | a :: b :: t => statusStep a b && traceOk (b :: t)

/-- C6: every ingestion run's status trace starts at UPLOADED, moves only
along the allowed transitions, and ends in PROCESSED or ERROR; no
transition leaves ERROR (it is terminal).  Statuses are one of UPLOADED,
PROCESSING, PROCESSED, ERROR by construction of `DocStatus`. -/
theorem document_status_transitions :
    (∀ extractOk chunkOk embedOk : Bool,
      (ingestTrace extractOk chunkOk embedOk).head? = some .UPLOADED ∧
      traceOk (ingestTrace extractOk chunkOk embedOk) = true ∧
      ((ingestTrace extractOk chunkOk embedOk).getLast? = some .PROCESSED ∨
       (ingestTrace extractOk chunkOk embedOk).getLast? = some .ERROR)) ∧
    (∀ s, statusStep .ERROR s = false) := by
  refine ⟨?_, ?_⟩
  · intro extractOk chunkOk embedOk
    cases extractOk <;> cases chunkOk <;> cases embedOk <;>
      exact ⟨rfl, rfl, by simp [ingestTrace, List.getLast?]⟩
  · intro s
    cases s <;> rfl

/-! ## Chat request building and history persistence (ChatInterface.jsx) -/

/-- A chat message as stored in the client's `chatMessages` state
(ChatInterface.jsx line 86: `{ role, content, timestamp }`; the timestamp
plays no role in any claim). -/
structure ChatMsg where
  role : String
  content : String
deriving DecidableEq, Repr

/-- Embedded from ChatInterface.jsx lines 37-40: the POST body sent to
`/api/queries/with-themes` — exactly the current question and the selected
document ids, nothing else. -/
structure RequestBody where
  query : String
  document_ids : List String
deriving DecidableEq, Repr

/-- Build the request body (ChatInterface.jsx lines 37-40). -/
def buildRequestBody (message : String) (selectedDocuments : List SelDoc) :
    RequestBody :=
  ⟨message, selectedDocuments.map (fun d => d.id)⟩

/-- Browser localStorage modelled as an association list; `setItem`
overwrites the value stored under `key`. -/
def setItem (store : List (String × String)) (key val : String) :
    List (String × String) :=
  (key, val) :: store.filter (fun kv => kv.1 != key)

/-- Read a key from the modelled localStorage. -/
def getItem (store : List (String × String)) (key : String) : Option String :=
  (store.find? (fun kv => kv.1 == key)).map (fun kv => kv.2)

/-- Stand-in for `JSON.stringify` on the chat message list (the claims only
need that the serialized history, not the request, is what reaches
localStorage). -/
def serializeMessages (ms : List ChatMsg) : String :=
  String.intercalate "\n" (ms.map (fun m => m.role ++ ": " ++ m.content))

/-- Embedded from ChatInterface.jsx lines 83-94 (`handleSendMessage`):
returns `none` when the trimmed input is empty (the early return), else the
updated message list, the updated localStorage (the history written under
the key `chatMessages`), and the request body passed to the mutation. -/
def handleSendMessage (messages : List ChatMsg) (input : String)
    (selected : List SelDoc) (store : List (String × String)) :
    Option (List ChatMsg × List (String × String) × RequestBody) :=
  if jsTrim input == "" then none
  else
    some (messages ++ [⟨"user", input⟩],
      setItem store "chatMessages"
        (serializeMessages (messages ++ [⟨"user", input⟩])),
      buildRequestBody input selected)

lemma find?_filter_of_imp (p q : (String × String) → Bool)
    (h : ∀ kv, p kv = true → q kv = true) :
    ∀ l : List (String × String), List.find? p (l.filter q) = List.find? p l := by
  intro l
  induction l with
  | nil => rfl
  | cons a t ih =>
    by_cases hp : p a = true
    · rw [List.filter_cons_of_pos (h a hp), List.find?_cons_of_pos _ hp,
        List.find?_cons_of_pos _ hp]
    · by_cases hq : q a = true
      · rw [List.filter_cons_of_pos hq, List.find?_cons_of_neg _ hp,
          List.find?_cons_of_neg _ hp, ih]
      · rw [List.filter_cons_of_neg (by simpa using hq),
          List.find?_cons_of_neg _ hp, ih]

lemma getItem_setItem_of_ne (store : List (String × String))
    (k v k' : String) (h : k' ≠ k) :
    getItem (setItem store k v) k' = getItem store k' := by
  have hk : ((k, v).1 == k') = false := by
    simp only [beq_eq_false_iff_ne]
    exact fun hc => h (hc.symm)
  simp only [getItem, setItem]
  rw [List.find?_cons_of_neg _ (by simp [hk]),
    find?_filter_of_imp _ _ ?_]
  intro kv hkv
  simp only [beq_iff_eq] at hkv
  simp only [bne_iff_ne, Ne]
  intro hc
  exact h (hkv ▸ hc ▸ rfl)

/-- C7: sending a message issues a request whose body is exactly the current
question and the selected document ids — independent of the chat history —
and persists the history only under the localStorage key `chatMessages`
(every other key is untouched). -/
theorem chat_request_stateless_history_in_localstorage
    (messages messagesAlt : List ChatMsg) (input : String)
    (selected : List SelDoc) (store : List (String × String))
    (h : jsTrim input ≠ "") :
    ∃ upd st req,
      handleSendMessage messages input selected store = some (upd, st, req) ∧
      req = ⟨input, selected.map (fun d => d.id)⟩ ∧
      (handleSendMessage messagesAlt input selected store).map
        (fun x => x.2.2) = some req ∧
      getItem st "chatMessages" =
        some (serializeMessages (messages ++ [⟨"user", input⟩])) ∧
      (∀ key, key ≠ "chatMessages" → getItem st key = getItem store key) := by
  have hb : (jsTrim input == "") = false := by
    simpa [beq_eq_false_iff_ne] using h
  refine ⟨messages ++ [⟨"user", input⟩],
    setItem store "chatMessages"
      (serializeMessages (messages ++ [⟨"user", input⟩])),
    buildRequestBody input selected, ?_, rfl, ?_, ?_, ?_⟩
  · simp [handleSendMessage, hb]
  · simp [handleSendMessage, hb]
  · simp [getItem, setItem, List.find?]
  · intro key hkey
    exact getItem_setItem_of_ne store "chatMessages" _ key hkey

/-- Witness for C7: two different histories produce the same request body,
and only the `chatMessages` key of the store changes. -/
theorem chat_request_stateless_history_in_localstorage_witness :
    ∃ upd st req,
      handleSendMessage [] "hello" [⟨"A"⟩] [("other", "v")] =
        some (upd, st, req) ∧
      req = ⟨"hello", ([⟨"A"⟩] : List SelDoc).map (fun d => d.id)⟩ ∧
      (handleSendMessage [⟨"user", "earlier"⟩] "hello" [⟨"A"⟩]
          [("other", "v")]).map (fun x => x.2.2) = some req ∧
      getItem st "chatMessages" =
        some (serializeMessages ([] ++ [⟨"user", "hello"⟩])) ∧
      (∀ key, key ≠ "chatMessages" →
        getItem st key = getItem [("other", "v")] key) :=
  chat_request_stateless_history_in_localstorage []
    [⟨"user", "earlier"⟩] "hello" [⟨"A"⟩] [("other", "v")] (by decide)

/-! ## Assistant message construction (ChatInterface.jsx onSuccess) -/

/-- The slice of a per-document response the chat client reads
(ChatInterface.jsx line 52 only accesses `dr.extracted_answer`). -/
structure FrontDocResponse where
  extracted_answer : String
deriving DecidableEq, Repr

/-- A theme as carried in the query response (only attached to the message,
never rendered as content). -/
structure FrontTheme where
  name : String
deriving DecidableEq, Repr

/-- The synthesized response of the backend payload: its text and its
themes list (ChatInterface.jsx reads only `.themes`). -/
structure SynthesizedResponse where
  text : String
  themes : List FrontTheme
deriving DecidableEq, Repr

/-- The query response payload as the client reads it: both fields may be
absent (`Option`), mirroring the `&&` and `?.` guards in the code. -/
structure QueryResponseData where
  document_responses : Option (List FrontDocResponse)
  synthesized_response : Option SynthesizedResponse
deriving DecidableEq, Repr

/-- The fallback text shown when no per-document responses arrive
(ChatInterface.jsx line 53). -/
def noModelResponseMsg : String := "Could not get a response from the model."

/-- Embedded from ChatInterface.jsx lines 50-53: the assistant message
content is the per-document extracted answers joined with a blank line when
`document_responses` is non-empty, else the fixed fallback string. -/
def assistantContent (data : QueryResponseData) : String :=
  match data.document_responses with
  | some drs =>
      if drs.length > 0 then
        String.intercalate "\n\n" (drs.map (fun dr => dr.extracted_answer))
      else noModelResponseMsg
  | none => noModelResponseMsg

/-- Embedded from ChatInterface.jsx line 61:
`data.synthesized_response?.themes || []`. -/
def assistantThemes (data : QueryResponseData) : List FrontTheme :=
  match data.synthesized_response with
  | some sr => sr.themes
  | none => []

/-- An assistant chat message with its attached themes
(ChatInterface.jsx lines 57-62). -/
structure AssistantMsg where
  role : String
  content : String
  themes : List FrontTheme
deriving DecidableEq, Repr

/-- Embedded from ChatInterface.jsx lines 55-63: `onSuccess` appends one
assistant message built from the payload. -/
def onSuccessAppend (messages : List AssistantMsg)
    (data : QueryResponseData) : List AssistantMsg :=
  messages ++ [⟨"assistant", assistantContent data, assistantThemes data⟩]

/-- C8: the displayed assistant content equals the extracted answers joined
with a blank line when `document_responses` is non-empty and the fixed
fallback string when it is empty or absent; the content never depends on
the synthesized response's text, whose themes list alone is attached to the
appended message. -/
theorem assistant_message_content_and_themes
    (drs : List FrontDocResponse) (sr : Option SynthesizedResponse)
    (messages : List AssistantMsg) (h : drs ≠ []) :
    assistantContent ⟨some drs, sr⟩ =
      String.intercalate "\n\n" (drs.map (fun dr => dr.extracted_answer)) ∧
    assistantContent ⟨some [], sr⟩ = noModelResponseMsg ∧
    assistantContent ⟨none, sr⟩ = noModelResponseMsg ∧
    (∀ t t' themes, assistantContent ⟨some drs, some ⟨t, themes⟩⟩ =
        assistantContent ⟨some drs, some ⟨t', themes⟩⟩) ∧
    onSuccessAppend messages ⟨some drs, sr⟩ =
      messages ++ [⟨"assistant", assistantContent ⟨some drs, sr⟩,
        (sr.map (fun s => s.themes)).getD []⟩] := by
  refine ⟨?_, rfl, rfl, fun _ _ _ => rfl, ?_⟩
  · simp only [assistantContent]
    rw [if_pos (by simpa using List.length_pos.mpr h)]
  · simp only [onSuccessAppend, assistantThemes]
    cases sr <;> rfl

/-- Witness for C8 at a concrete payload with two document responses and a
synthesized response whose text differs from the displayed content. -/
theorem assistant_message_content_and_themes_witness :
    assistantContent ⟨some [⟨"ans A"⟩, ⟨"ans B"⟩],
        some ⟨"synth text", [⟨"T"⟩]⟩⟩ =
      String.intercalate "\n\n"
        (([⟨"ans A"⟩, ⟨"ans B"⟩] : List FrontDocResponse).map
          (fun dr => dr.extracted_answer)) ∧
    assistantContent ⟨some [], some ⟨"synth text", [⟨"T"⟩]⟩⟩ =
      noModelResponseMsg ∧
    assistantContent ⟨none, some ⟨"synth text", [⟨"T"⟩]⟩⟩ =
      noModelResponseMsg ∧
    (∀ t t' themes,
      assistantContent ⟨some [⟨"ans A"⟩, ⟨"ans B"⟩], some ⟨t, themes⟩⟩ =
        assistantContent ⟨some [⟨"ans A"⟩, ⟨"ans B"⟩], some ⟨t', themes⟩⟩) ∧
    onSuccessAppend [] ⟨some [⟨"ans A"⟩, ⟨"ans B"⟩],
        some ⟨"synth text", [⟨"T"⟩]⟩⟩ =
      [] ++ [⟨"assistant",
        assistantContent ⟨some [⟨"ans A"⟩, ⟨"ans B"⟩],
          some ⟨"synth text", [⟨"T"⟩]⟩⟩,
        ((some ⟨"synth text", [⟨"T"⟩]⟩ :
            Option SynthesizedResponse).map (fun s => s.themes)).getD []⟩] :=
  assistant_message_content_and_themes [⟨"ans A"⟩, ⟨"ans B"⟩]
    (some ⟨"synth text", [⟨"T"⟩]⟩) [] (by decide)

/-! ## Document list fetching (frontend/src/api/documentService.js) -/

/-- A document record as received from the backend listing endpoint; each
field the client checks may be absent or empty (JavaScript falsy). -/
structure RawDoc where
  id : Option String
  name : Option String
  upload_date : Option String
deriving DecidableEq, Repr

/-- JavaScript truthiness of an optional string field: absent (undefined or
null) and the empty string are falsy. -/
def truthyStr : Option String → Bool
  | none => false
  | some s => s != ""

/-- Embedded from documentService.js lines 10-12: the validity check
`doc.id && doc.name && doc.upload_date`. -/
def isValidDoc (d : RawDoc) : Bool :=
  truthyStr d.id && truthyStr d.name && truthyStr d.upload_date

/-- Embedded from documentService.js lines 6-19 (`getAllDocuments`):
`response.data.documents || []` followed by the validity filter.  The
argument is the `documents` field of the response, `none` when the response
carries no documents array. -/
def getAllDocuments (respDocuments : Option (List RawDoc)) : List RawDoc :=
  (respDocuments.getD []).filter isValidDoc

/-- C9: every returned document has truthy id, name and upload_date;
documents missing any of these are omitted (the result is exactly the
filter of the input); a response without a documents array yields `[]`. -/
theorem getAllDocuments_returns_only_valid
    (respDocuments : Option (List RawDoc)) :
    (∀ d ∈ getAllDocuments respDocuments,
      truthyStr d.id = true ∧ truthyStr d.name = true ∧
      truthyStr d.upload_date = true) ∧
    getAllDocuments none = [] ∧
    (∀ docs, getAllDocuments (some docs) = docs.filter isValidDoc) ∧
    (∀ docs d, d ∈ docs → isValidDoc d = false →
      d ∉ getAllDocuments (some docs)) := by
  refine ⟨?_, rfl, fun _ => rfl, ?_⟩
  · intro d hd
    have h := (List.mem_filter.mp hd).2
    simp only [isValidDoc, Bool.and_eq_true] at h
    exact ⟨h.1.1, h.1.2, h.2⟩
  · intro docs d _ hinvalid hmem
    have h := (List.mem_filter.mp hmem).2
    rw [hinvalid] at h
    exact Bool.false_ne_true h

/-- Witness for C9: a response holding one well-formed document and one
missing its name returns only the well-formed one. -/
theorem getAllDocuments_returns_only_valid_witness :
    (∀ d ∈ getAllDocuments
        (some [⟨some "1", some "doc.pdf", some "2024-01-01"⟩,
               ⟨some "2", none, some "2024-01-02"⟩]),
      truthyStr d.id = true ∧ truthyStr d.name = true ∧
      truthyStr d.upload_date = true) ∧
    (⟨some "2", none, some "2024-01-02"⟩ : RawDoc) ∉ getAllDocuments
        (some [⟨some "1", some "doc.pdf", some "2024-01-01"⟩,
               ⟨some "2", none, some "2024-01-02"⟩]) :=
  ⟨(getAllDocuments_returns_only_valid
      (some [⟨some "1", some "doc.pdf", some "2024-01-01"⟩,
             ⟨some "2", none, some "2024-01-02"⟩])).1,
   (getAllDocuments_returns_only_valid
      (some [⟨some "1", some "doc.pdf", some "2024-01-01"⟩,
             ⟨some "2", none, some "2024-01-02"⟩])).2.2.2
     [⟨some "1", some "doc.pdf", some "2024-01-01"⟩,
      ⟨some "2", none, some "2024-01-02"⟩]
     ⟨some "2", none, some "2024-01-02"⟩ (by decide) (by decide)⟩

/-! ## Document upload (DocumentUpload component) -/

/-- A browser `File` as the upload component reads it: name, MIME type and
byte size. -/
structure JSFile where
  name : String
  type : String
  size : Nat
deriving DecidableEq, Repr

/-- Embedded from DocumentUpload line 12: the MIME types the `onDrop`
filter treats as valid — note the fourth entry `image/jpg`. -/
def onDropValidTypes : List String :=
  ["application/pdf", "image/png", "image/jpeg", "image/jpg"]

/-- The `onDrop` validity check (DocumentUpload line 12). -/
def isValidFile (f : JSFile) : Bool := onDropValidTypes.contains f.type

/-- The error message set when a dropped file fails the type check
(DocumentUpload line 14). -/
def uploadErrorMsg : String := "Only PDF, PNG, JPG and JPEG files are supported"

/-- Embedded from DocumentUpload lines 9-22 (`onDrop`): keep only the valid
files out of the dropzone-accepted ones and append them to the previous
selection (when the valid list is empty the selection is unchanged). -/
def onDropSelection (prev acceptedFiles : List JSFile) : List JSFile :=
  if (acceptedFiles.filter isValidFile).length > 0 then
    prev ++ acceptedFiles.filter isValidFile
  else prev

/-- Embedded from DocumentUpload lines 10-16: the error state after a drop —
the message when some dropzone-accepted file has an invalid type, else the
empty string (cleared at the start of `onDrop`). -/
def onDropError (acceptedFiles : List JSFile) : String :=
  if acceptedFiles.any (fun f => !(isValidFile f)) then uploadErrorMsg else ""

/-- Does `s` end with `p`? -/
def strEndsWith (s p : String) : Bool :=
  s.toList.reverse.take p.toList.length == p.toList.reverse

/-- The react-dropzone gate as configured in DocumentUpload lines 24-32: a
dropped file reaches `onDrop`'s `acceptedFiles` when its MIME type matches
one of the accept keys or its name ends in one of the configured extensions
(the attr-accept contract), and its size is at most `maxSize` (10485760
bytes). -/
def dropzoneAccepts (f : JSFile) : Bool :=
  ((["application/pdf", "image/png", "image/jpeg"] : List String).contains f.type ||
    ([".pdf", ".png", ".jpg", ".jpeg"] : List String).any
      (fun e => strEndsWith f.name e)) &&
  f.size ≤ 10485760

/-- The selection state (the files `handleUpload` would submit) after a
sequence of drops, each gated by the dropzone and filtered by `onDrop`,
starting from an empty selection. -/
def selectionAfterDrops (drops : List (List JSFile)) : List JSFile :=
  drops.foldl (fun st dropped =>
    onDropSelection st (dropped.filter dropzoneAccepts)) []

lemma onDropSelection_eq_append (prev accepted : List JSFile) :
    onDropSelection prev accepted = prev ++ accepted.filter isValidFile := by
  simp only [onDropSelection]
  by_cases h : (accepted.filter isValidFile).length > 0
  · rw [if_pos h]
  · rw [if_neg h]
    have : accepted.filter isValidFile = [] := by
      cases hf : accepted.filter isValidFile with
      | nil => rfl
      | cons a t => rw [hf] at h; simp at h
    rw [this, List.append_nil]

lemma mem_selectionAfterDrops (drops : List (List JSFile)) :
    ∀ f ∈ selectionAfterDrops drops,
      isValidFile f = true ∧ dropzoneAccepts f = true := by
  suffices h : ∀ (ds : List (List JSFile)) (st : List JSFile),
      (∀ f ∈ st, isValidFile f = true ∧ dropzoneAccepts f = true) →
      ∀ f ∈ ds.foldl (fun st dropped =>
          onDropSelection st (dropped.filter dropzoneAccepts)) st,
        isValidFile f = true ∧ dropzoneAccepts f = true by
    intro f hf
    exact h drops [] (by simp) f hf
  intro ds
  induction ds with
  | nil => intro st hst; simpa using hst
  | cons d ds ih =>
    intro st hst
    simp only [List.foldl]
    apply ih
    intro f hf
    rw [onDropSelection_eq_append] at hf
    rcases List.mem_append.mp hf with hf | hf
    · exact hst f hf
    · have h1 := List.mem_filter.mp hf
      have h2 := List.mem_filter.mp h1.1
      exact ⟨h1.2, h2.2⟩

/-- C10 (counterexample): a dropped file whose MIME type is `image/jpg` —
none of application/pdf, image/png, image/jpeg — passes the dropzone gate
(its name ends in `.jpg`) and the `onDrop` type filter, and so ends up in
the submitted selection. -/
theorem upload_accepts_image_jpg_type :
    (⟨"scan.jpg", "image/jpg", 100⟩ : JSFile) ∈
      selectionAfterDrops [[⟨"scan.jpg", "image/jpg", 100⟩]] ∧
    ("image/jpg" : String) ≠ "application/pdf" ∧
    ("image/jpg" : String) ≠ "image/png" ∧
    ("image/jpg" : String) ≠ "image/jpeg" := by
  refine ⟨?_, by decide, by decide, by decide⟩
  decide

/-- C10 (amended): the upload component only ever submits files whose MIME
type is one of application/pdf, image/png, image/jpeg or image/jpg and
whose size is at most 10485760 bytes; for every dropped file set, files of
any other type are excluded from the selection (which is exactly the
previous selection plus the valid files) and the error message is set
exactly when such a file was dropped, while the accepted files are kept. -/
theorem upload_submits_only_valid_bounded_files
    (drops : List (List JSFile)) (prev accepted : List JSFile) :
    (∀ f ∈ selectionAfterDrops drops,
      f.type ∈ onDropValidTypes ∧ f.size ≤ 10485760) ∧
    onDropSelection prev accepted = prev ++ accepted.filter isValidFile ∧
    (∀ f ∈ accepted, isValidFile f = false →
      f ∉ accepted.filter isValidFile) ∧
    (onDropError accepted = uploadErrorMsg ↔
      ∃ f ∈ accepted, isValidFile f = false) := by
  refine ⟨?_, onDropSelection_eq_append prev accepted, ?_, ?_⟩
  · intro f hf
    obtain ⟨hv, hd⟩ := mem_selectionAfterDrops drops f hf
    constructor
    · simpa [isValidFile] using hv
    · simp only [dropzoneAccepts, Bool.and_eq_true, decide_eq_true_eq] at hd
      exact hd.2
  · intro f _ hinvalid hmem
    have h := (List.mem_filter.mp hmem).2
    rw [hinvalid] at h
    exact Bool.false_ne_true h
  · simp only [onDropError]
    by_cases h : accepted.any (fun f => !(isValidFile f)) = true
    · rw [if_pos h]
      simp only [List.any_eq_true, Bool.not_eq_true'] at h
      simpa using h
    · rw [if_neg h]
      constructor
      · intro hc
        exact absurd hc.symm (by decide)
      · intro hc
        simp only [List.any_eq_true, Bool.not_eq_true'] at h
        exact absurd (by simpa using hc) h

/-- Witness for C10 (amended) at a concrete drop: a PDF within the size
bound is kept while a plain-text file is excluded and raises the error. -/
theorem upload_submits_only_valid_bounded_files_witness :
    (∀ f ∈ selectionAfterDrops [[⟨"a.pdf", "application/pdf", 10⟩]],
      f.type ∈ onDropValidTypes ∧ f.size ≤ 10485760) ∧
    onDropSelection [] [⟨"a.pdf", "application/pdf", 10⟩,
        ⟨"x.txt", "text/plain", 5⟩] =
      [] ++ ([⟨"a.pdf", "application/pdf", 10⟩,
        ⟨"x.txt", "text/plain", 5⟩] : List JSFile).filter isValidFile ∧
    (∀ f ∈ ([⟨"a.pdf", "application/pdf", 10⟩,
        ⟨"x.txt", "text/plain", 5⟩] : List JSFile),
      isValidFile f = false →
      f ∉ ([⟨"a.pdf", "application/pdf", 10⟩,
        ⟨"x.txt", "text/plain", 5⟩] : List JSFile).filter isValidFile) ∧
    (onDropError [⟨"a.pdf", "application/pdf", 10⟩,
        ⟨"x.txt", "text/plain", 5⟩] = uploadErrorMsg ↔
      ∃ f ∈ ([⟨"a.pdf", "application/pdf", 10⟩,
        ⟨"x.txt", "text/plain", 5⟩] : List JSFile),
        isValidFile f = false) :=
  upload_submits_only_valid_bounded_files
    [[⟨"a.pdf", "application/pdf", 10⟩]] []
    [⟨"a.pdf", "application/pdf", 10⟩, ⟨"x.txt", "text/plain", 5⟩]
